import Mathlib

/-!
Verification of the text-to-rdf fixture-producing scripts.

The model shallowly embeds the two scripts `scripts/create_long_test_doc.py`
and `scripts/fetch_docred.py`.  Python strings are modelled as `List Char`
(`Str` below); the string operations the scripts use (`str.split('.')`,
`str.strip()`, `' '.join(...)`, `len`, `+`) are defined on that
representation.  File I/O is modelled algebraically: a fixture file is
either a parseable collection of documents or unparseable content.
-/

namespace TextToRdf

/-- Python strings, modelled as lists of characters. -/
abbrev Str := List Char

/-- Characters stripped by Python `str.strip()` (ASCII whitespace). -/
def pyWhitespace (c : Char) : Bool :=
  c = ' ' || c = '\t' || c = '\n' || c = '\r' || c = '\x0b' || c = '\x0c'

/-- Accumulator loop for `splitOnChar`; `acc` holds the current fragment
reversed. -/
def splitOnCharAux (sep : Char) : Str → Str → List Str
  | [], acc => [acc.reverse]
  | x :: xs, acc =>
    if x = sep then acc.reverse :: splitOnCharAux sep xs []
    else splitOnCharAux sep xs (x :: acc)

/-- Python `text.split(sep)` for a one-character separator: n occurrences of
the separator yield n+1 fragments, empty fragments included. -/
def splitOnChar (sep : Char) (s : Str) : List Str :=
  splitOnCharAux sep s []

/-- The pending (reversed) fragment after `splitOnCharAux` has consumed `s`
starting from accumulator `acc`. -/
def pendAux (sep : Char) : Str → Str → Str
  | [], acc => acc
  | x :: xs, acc =>
    if x = sep then pendAux sep xs []
    else pendAux sep xs (x :: acc)

/-- Piecewise evaluator for `splitOnChar` over a text given as concatenated
pieces; equal to splitting the concatenation (`splitOnChar_flatten`), but
every recursion chain stays as short as the longest piece. -/
def splitChunksAux (sep : Char) : Str → List Str → List Str
  | acc, [] => [acc.reverse]
  | acc, piece :: rest =>
    (splitOnCharAux sep piece acc).dropLast ++
      splitChunksAux sep (pendAux sep piece acc) rest

/-- Python `s.strip()`: drop leading and trailing whitespace. -/
def pyStrip (s : Str) : Str :=
  ((s.dropWhile pyWhitespace).reverse.dropWhile pyWhitespace).reverse

/-- `[s.strip() for s in text.split('.') if s.strip()]` — the non-empty
stripped sentence fragments of a text. -/
def sentenceFragments (text : Str) : List Str :=
  ((splitOnChar '.' text).map pyStrip).filter (fun s => s ≠ [])

/-- `for i in range(0, len(l), 4): l[i:i+4]` — split a list into windows of
four elements; the final window may be shorter, and an empty list yields no
windows. -/
def chunksOf4 : List α → List (List α)
  | [] => []
  | [a] => [[a]]
  | [a, b] => [[a, b]]
  | [a, b, c] => [[a, b, c]]
  | a :: b :: c :: d :: rest => [a, b, c, d] :: chunksOf4 rest

/-- The Segmenter: split the raw text on `'.'`, strip the fragments, discard
empty ones, group into paragraphs of four, and re-append the terminator
(`[s + '.' for s in paragraph if s]`). -/
def segmentText (text : Str) : List (List Str) :=
  (chunksOf4 (sentenceFragments text)).map
    (fun para => (para.filter (fun s => s ≠ [])).map (fun s => s ++ ['.']))

/-- Python `sep.join(parts)`. -/
def pyJoin (sep : Str) : List Str → Str
  | [] => []
  | [s] => s
  | s :: rest => s ++ sep ++ pyJoin sep rest

/-- `[s for para in sents for s in para]` — the flattened sentence list. -/
def flattenSents (sents : List (List Str)) : List Str :=
  sents.flatten

/-- `len(' '.join(sentList))` — the character count of the joined text. -/
def charCount (sentList : List Str) : Nat :=
  (pyJoin [' '] sentList).length

/-- `token_estimate = char_count // 4`, as a function of the character
count. -/
def approxTokensOfChars (n : Nat) : Nat :=
  n / 4

/-- The token estimate of a flattened sentence list. -/
def approxTokens (sentList : List Str) : Nat :=
  approxTokensOfChars (charCount sentList)

/-! ## Data model -/

/-- An entity mention: `{name, sent_id, type, pos: [start, end)}`. -/
structure Mention where
  name : String
  sent_id : Int
  mtype : String
  posStart : Int
  posEnd : Int
deriving DecidableEq

/-- A relation triple `{h, t, r}`; `h` and `t` index into `vertexSet`. -/
structure RelLabel where
  h : Int
  t : Int
  r : String
deriving DecidableEq

/-- A DocRED-style document record. -/
structure Document where
  id : String
  title : String
  sents : List (List Str)
  vertexSet : List (List Mention)
  labels : List RelLabel
deriving DecidableEq

/-- Invariant 1 of the data model: `0 <= h, t < len(vertexSet)` and
`h != t`. -/
def labelOk (numVertices : Nat) (l : RelLabel) : Prop :=
  0 ≤ l.h ∧ l.h < (numVertices : Int) ∧ 0 ≤ l.t ∧ l.t < (numVertices : Int) ∧ l.h ≠ l.t

instance (numVertices : Nat) (l : RelLabel) : Decidable (labelOk numVertices l) := by
  unfold labelOk
  infer_instance

/-- Invariants 2 and 3 of the data model for one mention: the sentence index
is within the flattened sentence count, and the span satisfies
`0 <= start < end`. -/
def mentionOk (numSents : Nat) (m : Mention) : Prop :=
  0 ≤ m.sent_id ∧ m.sent_id < (numSents : Int) ∧ 0 ≤ m.posStart ∧ m.posStart < m.posEnd

instance (numSents : Nat) (m : Mention) : Decidable (mentionOk numSents m) := by
  unfold mentionOk
  infer_instance

/-- Invariants 1–4 of the data model for a whole document (invariant 5,
uniqueness of `id` in a collection, concerns the collection, not one
document). -/
def documentInvariants (d : Document) : Prop :=
  (∀ l ∈ d.labels, labelOk d.vertexSet.length l) ∧
  (∀ cl ∈ d.vertexSet, cl ≠ []) ∧
  (∀ cl ∈ d.vertexSet, ∀ m ∈ cl, mentionOk (flattenSents d.sents).length m)

instance (d : Document) : Decidable (documentInvariants d) := by
  unfold documentInvariants
  infer_instance

/-! ## The synthetic long document (`create_long_test_doc.py`) -/

/-- The exact `full_text` literal of `create_long_test_document`, split into
pieces of at most 140 characters (their concatenation is the Python string;
the split keeps every kernel reduction chain short). -/
def fullPieces : List Str := List.map String.data [
  "\nMarie Curie was born Maria Sklodowska on November 7, 1867, in Warsaw, Poland, which was then part of the Russian Empire.\nShe was the younge",
  "st of five children born to Wladyslaw Sklodowski and Bronislawa Sklodowska. Her father was a mathematics\nand physics teacher at a gymnasium,",
  " while her mother was a teacher, pianist, and singer who ran a prestigious boarding school\nfor girls in Warsaw. The family faced significant",
  " financial difficulties after her father lost his teaching position for pro-Polish\nsentiments and her mother died of tuberculosis when Maria",
  " was ten years old.\n\nDuring her childhood, Maria showed exceptional intelligence and a remarkable memory that impressed her teachers and fam",
  "ily.\nShe completed her secondary education at a girls\x27 gymnasium in Warsaw at the age of 15 with top honors, earning a gold medal.\nHowever, ",
  "as a woman living in occupied Poland under Russian rule, she was not permitted to attend the male-only University\nof Warsaw or any other tra",
  "ditional institution of higher education. Determined to pursue her education, she took classes from\na clandestine institution known as the F",
  "lying University, which held classes in changing locations to avoid Russian authorities.\nThis underground organization admitted women studen",
  "ts and promoted Polish culture and scientific education.\n\nFrom 1885 to 1889, Maria worked as a governess\n\nDuring her childhood, Maria showed",
  " exceptional intelligence and a remarkable\nmemory. She completed high school at the age of 15 with top honors. However,\nas a woman in occupi",
  "ed Poland, she was not permitted to attend the male-only\nUniversity of Warsaw. She took classes from a clandestine university  that\nadmitted",
  " women students called the Flying University.\n\nIn 1891, at the age of 24, Maria left Poland to study physics and mathematics\nat the Universi",
  "ty of Paris, also known as the Sorbonne. She enrolled in the\nFaculty of Science and worked extremely hard to overcome the language barrier\na",
  "nd gaps in her scientific education. She lived in poverty during this time,\noften surviving on bread and tea while studying in the library u",
  "ntil it closed.\n\nIn 1893, Maria earned her degree in physics with top marks. She then earned\na second degree in mathematics in 1894. While w",
  "orking in a laboratory, she met\nPierre Curie, a French physicist who was teaching at the School of Physics and\nChemistry. They married in 18",
  "95 in a simple civil ceremony.\n\nMarie Curie became fascinated by Henri Becquerel\x27s discovery of mysterious rays\nfrom uranium in 1896. She de",
  "cided to investigate these rays as the subject of\nher doctoral thesis. Using an electrometer invented by Pierre and his brother,\nshe discove",
  "red that the rays were properties of the element uranium itself,\nnot dependent on its form or compounds.\n\nIn 1898, Marie and Pierre Curie di",
  "scovered two new radioactive elements. The first\nwas polonium, which Marie named after her homeland Poland. The second was radium,\nwhich the",
  "y finally isolated in pure form in 1902 after processing tons of pitchblende\nore. The work was extremely dangerous and physically exhausting",
  ".\n\nIn 1903, Marie Curie became the first woman to earn a doctorate in France. That\nsame year, she shared the Nobel Prize in Physics with Pie",
  "rre Curie and Henri\nBecquerel for their work on radioactivity. She was the first woman to win a Nobel\nPrize and the first person to win Nobe",
  "l Prizes in two different sciences.\n\nTragedy struck in 1906 when Pierre Curie was killed in a street accident in Paris.\nDespite her grief, M",
  "arie took over his teaching position at the Sorbonne, becoming\nthe first woman to teach there. She continued her research\n with determinatio",
  "n.\n\nIn 1911, Marie Curie won her second Nobel Prize, this time in Chemistry, for\nher discovery and isolation of pure radium and polonium. Sh",
  "e was the first person\never to win two Nobel Prizes. She used the prize money to fund her research at\nthe Radium Institute in Paris, which s",
  "he helped establish in 1914.\n\nDuring World War I, Marie Curie developed mobile radiography units to provide\nX-ray services to field hospital",
  "s. She personally drove these units, known as\n\"petites Curies,\" to the front lines. She also trained other women to operate\nthe equipment. O",
  "ver one million soldiers were examined using her X-ray units.\n\nAfter the war, Marie Curie became the director of the Curie Laboratory at the",
  "\nRadium Institute. She traveled to the United States in 1921 to raise funds for\nradium research. President Warren Harding presented her with",
  " one gram of radium,\npurchased by American women through a nationwide campaign.\n\nThroughout her career, Marie Curie published numerous scien",
  "tific papers and books.\nShe trained many students who became prominent scientists themselves. She was\nappointed Director of the Curie Labora",
  "tory in Paris and held this position until\nher death. She promoted international scientific cooperation and served on many\nscientific commit",
  "tees.\n\nMarie Curie\x27s long exposure to radioactive materials without proper protection\ntook its toll on her health. She developed cataracts a",
  "nd suffered from various\nillnesses related to radiation exposure. On July 4, 1934, she died of aplastic\nanemia at a sanatorium in Passy, Fra",
  "nce.\n\nMarie Curie\x27s legacy extends far beyond her scientific discoveries. She paved\nthe way for women in science and showed that determinati",
  "on and intellect have\nno gender. Her daughter Irene Joliot-Curie also won the Nobel Prize in Chemistry\nin 1935. In 1995, Marie Curie became ",
  "the first woman to be entombed on her own\nmerits in the Pantheon in Paris.\n\nToday, the Curie family holds the record for Nobel Prize wins, w",
  "ith five prizes\namong family members. Marie Curie\x27s notebooks are still radioactive and are kept\nin lead-lined boxes. The unit of radioactiv",
  "ity, the curie, is named in her honor.\nHer life story continues to inspire scientists, especially women in STEM fields,\naround the world.\n"
]

/-- The `full_text` constant of `create_long_test_document`. -/
def fullText : Str := fullPieces.flatten

/-- The hand-declared `vertexSet` of `create_long_test_document`. -/
def marieVertexSet : List (List Mention) := [
  [⟨"Marie Curie", 0, "PER", 0, 2⟩],
  [⟨"Warsaw", 0, "LOC", 10, 11⟩],
  [⟨"Poland", 0, "LOC", 12, 13⟩],
  [⟨"University of Paris", 2, "ORG", 8, 11⟩],
  [⟨"Pierre Curie", 3, "PER", 5, 7⟩],
  [⟨"France", 4, "LOC", 12, 13⟩],
  [⟨"Radium Institute", 10, "ORG", 8, 10⟩],
  [⟨"Paris", 10, "LOC", 11, 12⟩]
]

/-- The hand-declared `labels` of `create_long_test_document`. -/
def marieLabels : List RelLabel := [
  ⟨0, 1, "P19"⟩,
  ⟨0, 2, "P27"⟩,
  ⟨0, 3, "P69"⟩,
  ⟨1, 2, "P17"⟩,
  ⟨4, 0, "P26"⟩,
  ⟨0, 5, "P20"⟩,
  ⟨7, 5, "P17"⟩
]

/-- The DocumentAssembler: the script builds the document record directly
from its parts — the return statement of `create_long_test_document`.  No
invariant of the data model is checked anywhere in the script. -/
def assembleDocument (id title : String) (sents : List (List Str))
    (vertexSet : List (List Mention)) (labels : List RelLabel) : Document :=
  { id := id, title := title, sents := sents, vertexSet := vertexSet, labels := labels }

/-- `create_long_test_document()`. -/
def create_long_test_document : Document :=
  assembleDocument "long_doc_marie_curie" "Marie Curie (Long Article)"
    (segmentText fullText) marieVertexSet marieLabels

/-- The reported token estimate of a document
(`token_estimate = len(' '.join(all_sents)) // 4` in `main`). -/
def tokenEstimate (d : Document) : Nat :=
  approxTokens (flattenSents d.sents)

/-! ## Fixture store -/

/-- The contents of a fixture file: either a parseable collection of
documents, or anything else (absent file, unparseable JSON, wrong shape). -/
inductive FileContent where
  | collection : List Document → FileContent
  | invalid : FileContent
deriving DecidableEq

/-- Loading a fixture file: a parse failure (or absent file) yields the
empty collection (the bare `except:` in `main`). -/
def loadFixture : FileContent → List Document
  | FileContent.collection docs => docs
  | FileContent.invalid => []

/-- `main` of `create_long_test_doc.py` on the fixture path: load (fail-open),
append the new documents, write the whole collection back. -/
def appendAndSave (fc : FileContent) (newDocs : List Document) : FileContent :=
  FileContent.collection (loadFixture fc ++ newDocs)

/-! ## Corpus filter (`fetch_docred.py`) -/

/-- A candidate record from the external corpus. -/
structure Candidate where
  title : String
  sents : List (List Str)
  vertexSet : List (List Mention)
  labels : List RelLabel
deriving DecidableEq

/-- The four threshold checks of the selection loop:
`num_sentences >= 10 and num_entities >= 5 and num_relations >= 3 and
char_count > 2000`. -/
def qualifies (c : Candidate) : Bool :=
  decide (10 ≤ (flattenSents c.sents).length) &&
  decide (5 ≤ c.vertexSet.length) &&
  decide (3 ≤ c.labels.length) &&
  decide (2000 < charCount (flattenSents c.sents))

/-- Wrapping a selected candidate as a Document: id `f"docred_{idx}"` from the
source position, all other fields copied verbatim. -/
def wrapCandidate (idx : Nat) (c : Candidate) : Document :=
  { id := "docred_" ++ toString idx, title := c.title, sents := c.sents,
    vertexSet := c.vertexSet, labels := c.labels }

/-- The selection loop of `fetch_docred.main`: `idx` is the enumeration
counter, `acc` the selected documents in reverse; after appending, the loop
breaks once `K` documents have been selected (the script has `K = 3`). -/
def corpusFilterLoop (K : Nat) : Nat → List Document → List Candidate → List Document
  | _, acc, [] => acc.reverse
  | idx, acc, c :: rest =>
    if qualifies c then
      if K ≤ (wrapCandidate idx c :: acc).length then (wrapCandidate idx c :: acc).reverse
      else corpusFilterLoop K (idx + 1) (wrapCandidate idx c :: acc) rest
    else corpusFilterLoop K (idx + 1) acc rest

/-- The CorpusFilter: the script's loop with the target count `K`
generalised from the literal `3`. -/
def corpusFilter (K : Nat) (cands : List Candidate) : List Document :=
  corpusFilterLoop K 0 [] cands

/-- All qualifying candidates wrapped with their source positions, never
stopping early (specification device for reasoning about the loop). -/
def selectFrom (idx : Nat) : List Candidate → List Document
  | [] => []
  | c :: rest =>
    if qualifies c then wrapCandidate idx c :: selectFrom (idx + 1) rest
    else selectFrom (idx + 1) rest

/-- The four thresholds, re-read off a wrapped Document. -/
def docQualifies (d : Document) : Bool :=
  decide (10 ≤ (flattenSents d.sents).length) &&
  decide (5 ≤ d.vertexSet.length) &&
  decide (3 ≤ d.labels.length) &&
  decide (2000 < charCount (flattenSents d.sents))

/-- The save step of `fetch_docred.main`: the output path is opened in write
mode and the selected documents are dumped as the whole file; the previous
contents are never read. -/
def fetchDocredSave (prior : FileContent) (docs : List Document) : FileContent :=
  FileContent.collection docs

/-! ## Concrete test data for scenarios and witnesses -/

/-- A candidate that fails every threshold. -/
def blankCandidate : Candidate :=
  { title := "blank", sents := [], vertexSet := [], labels := [] }

/-- A 200-character sentence. -/
def bulkSentence : Str := List.replicate 200 'x'

/-- A benign mention for bulk candidates. -/
def bulkMention : Mention := ⟨"E", 0, "PER", 0, 1⟩

/-- A candidate passing all four thresholds: 10 sentences of 200 characters
(joined character count 2009 > 2000), 5 entity clusters, 3 relation
labels. -/
def candA : Candidate :=
  { title := "A", sents := [List.replicate 10 bulkSentence],
    vertexSet := List.replicate 5 [bulkMention],
    labels := List.replicate 3 ⟨0, 1, "P1"⟩ }

/-- A second qualifying candidate, distinguishable from `candA`. -/
def candB : Candidate :=
  { title := "B", sents := [List.replicate 10 bulkSentence],
    vertexSet := List.replicate 5 [bulkMention],
    labels := List.replicate 3 ⟨0, 1, "P1"⟩ }

/-- A stream of five candidates in which only positions 1 and 3 qualify. -/
def scenario5 : List Candidate :=
  [blankCandidate, candA, blankCandidate, candB, blankCandidate]

/-- Three singleton entity clusters (for the out-of-range label scenario). -/
def vs3 : List (List Mention) :=
  [[⟨"a", 0, "PER", 0, 1⟩], [⟨"b", 0, "PER", 0, 1⟩], [⟨"c", 0, "PER", 0, 1⟩]]

/-! ## Lemmas about the string operations -/

theorem splitOnCharAux_ne_nil (sep : Char) (s acc : Str) :
    splitOnCharAux sep s acc ≠ [] := by
  induction s generalizing acc with
  | nil => simp [splitOnCharAux]
  | cons x xs ih =>
    simp only [splitOnCharAux]
    split
    · simp
    · exact ih _

theorem splitOnCharAux_append (sep : Char) (s t acc : Str) :
    splitOnCharAux sep (s ++ t) acc =
      (splitOnCharAux sep s acc).dropLast ++ splitOnCharAux sep t (pendAux sep s acc) := by
  induction s generalizing acc with
  | nil => simp [splitOnCharAux, pendAux]
  | cons x xs ih =>
    simp only [List.cons_append, splitOnCharAux, pendAux, List.append_eq]
    split
    · rw [ih, List.dropLast_cons_of_ne_nil (splitOnCharAux_ne_nil sep xs [])]
      simp
    · exact ih _

theorem splitOnCharAux_flatten (sep : Char) (pieces : List Str) (acc : Str) :
    splitOnCharAux sep pieces.flatten acc = splitChunksAux sep acc pieces := by
  induction pieces generalizing acc with
  | nil => simp [splitOnCharAux, splitChunksAux]
  | cons p rest ih =>
    rw [List.flatten_cons, splitOnCharAux_append, ih]
    rfl

/-- Splitting a text given as concatenated pieces, piece by piece. -/
theorem splitOnChar_flatten (sep : Char) (pieces : List Str) :
    splitOnChar sep pieces.flatten = splitChunksAux sep [] pieces :=
  splitOnCharAux_flatten sep pieces []

/-- The length of a joined sentence list: the sentence lengths plus one
separator between consecutive sentences. -/
theorem charCount_eq_sum (l : List Str) :
    charCount l = (l.map List.length).sum + (l.length - 1) := by
  induction l with
  | nil => rfl
  | cons s rest ih =>
    cases rest with
    | nil => simp [charCount, pyJoin]
    | cons r rest2 =>
      have h : pyJoin [' '] (s :: r :: rest2) = s ++ [' '] ++ pyJoin [' '] (r :: rest2) := rfl
      show (pyJoin [' '] (s :: r :: rest2)).length = _
      rw [h, List.length_append, List.length_append,
        show (pyJoin [' '] (r :: rest2)).length = charCount (r :: rest2) from rfl, ih]
      simp only [List.map_cons, List.sum_cons, List.length_cons, List.length_nil,
        List.length_singleton]
      omega

/-! ## Lemmas about the paragraph grouping -/

theorem chunksOf4_flatten (l : List α) : (chunksOf4 l).flatten = l := by
  induction l using chunksOf4.induct with
  | case1 => rfl
  | case2 a => rfl
  | case3 a b => rfl
  | case4 a b c => rfl
  | case5 a b c d rest ih => simp [chunksOf4, ih]

theorem chunksOf4_ne_nil (l : List α) (h : l ≠ []) : chunksOf4 l ≠ [] := by
  induction l using chunksOf4.induct <;> simp_all [chunksOf4]

theorem chunksOf4_length (l : List α) :
    (chunksOf4 l).length = (l.length + 3) / 4 := by
  induction l using chunksOf4.induct with
  | case1 => simp [chunksOf4]
  | case2 a => simp [chunksOf4]
  | case3 a b => simp [chunksOf4]
  | case4 a b c => simp [chunksOf4]
  | case5 a b c d rest ih =>
    simp only [chunksOf4, List.length_cons, ih]
    omega

theorem chunksOf4_getLast (l : List α) (h : l ≠ []) :
    (chunksOf4 l).getLast?.map List.length =
      some (if l.length % 4 = 0 then 4 else l.length % 4) := by
  induction l using chunksOf4.induct with
  | case1 => simp at h
  | case2 a => simp [chunksOf4]
  | case3 a b => simp [chunksOf4]
  | case4 a b c => simp [chunksOf4]
  | case5 a b c d rest ih =>
    by_cases hr : rest = []
    · subst hr
      simp [chunksOf4]
    · have ih2 := ih hr
      obtain ⟨y, ys, hys⟩ := List.exists_cons_of_ne_nil (chunksOf4_ne_nil rest hr)
      have hmod : (a :: b :: c :: d :: rest).length % 4 = rest.length % 4 := by
        simp only [List.length_cons]
        omega
      rw [show chunksOf4 (a :: b :: c :: d :: rest) = [a, b, c, d] :: chunksOf4 rest from rfl,
        hys, List.getLast?_cons_cons, ← hys, ih2, hmod]

/-- Every element of a window is an element of the original list. -/
theorem mem_of_mem_chunksOf4 {l : List α} {para : List α} {a : α}
    (hp : para ∈ chunksOf4 l) (ha : a ∈ para) : a ∈ l := by
  rw [← chunksOf4_flatten l]
  exact List.mem_flatten.mpr ⟨para, hp, ha⟩

/-- Sentence fragments are never empty. -/
theorem sentenceFragments_ne_nil (text : Str) (s : Str)
    (hs : s ∈ sentenceFragments text) : s ≠ [] := by
  have := (List.mem_filter.mp hs).2
  simpa using this

/-- Inside `segmentText`, the inner `if s` filter keeps every sentence of a
paragraph window, because the fragments were already filtered non-empty. -/
theorem segmentText_para_filter (text : Str) (para : List Str)
    (hp : para ∈ chunksOf4 (sentenceFragments text)) :
    para.filter (fun s => s ≠ []) = para := by
  refine List.filter_eq_self.mpr ?_
  intro a ha
  have : a ≠ [] := sentenceFragments_ne_nil text a (mem_of_mem_chunksOf4 hp ha)
  simpa using this

/-! ## Lemmas about the corpus filter -/

/-- The selection loop with fewer than `K` already selected delivers the next
`K - acc.length` qualifying candidates. -/
theorem corpusFilterLoop_eq (K : Nat) (cands : List Candidate) :
    ∀ (idx : Nat) (acc : List Document), acc.length < K →
      corpusFilterLoop K idx acc cands =
        acc.reverse ++ (selectFrom idx cands).take (K - acc.length) := by
  induction cands with
  | nil => intro idx acc _; simp [corpusFilterLoop, selectFrom]
  | cons c rest ih =>
    intro idx acc hacc
    simp only [corpusFilterLoop, selectFrom]
    cases hq : qualifies c with
    | false =>
      simp only [hq, Bool.false_eq_true, if_false]
      exact ih _ _ hacc
    | true =>
      simp only [hq, eq_self_iff_true, if_true]
      by_cases hfull : K ≤ (wrapCandidate idx c :: acc).length
      · rw [if_pos hfull]
        have h1 : K - acc.length = 1 := by
          simp only [List.length_cons] at hfull
          omega
        rw [h1]
        simp
      · rw [if_neg hfull]
        have hlt : (wrapCandidate idx c :: acc).length < K := by omega
        have h2 : K - acc.length = (K - (wrapCandidate idx c :: acc).length) + 1 := by
          simp only [List.length_cons]
          omega
        rw [ih _ _ hlt, h2, List.take_succ_cons]
        simp

/-- With a positive target count, the filter returns the first `K`
qualifying candidates. -/
theorem corpusFilter_eq_take (K : Nat) (hK : 1 ≤ K) (cands : List Candidate) :
    corpusFilter K cands = (selectFrom 0 cands).take K := by
  have h := corpusFilterLoop_eq K cands 0 [] (by simpa using hK)
  simpa [corpusFilter] using h

/-- With target count zero, the post-append break still lets the first
qualifying candidate through. -/
theorem corpusFilter_zero (cands : List Candidate) :
    corpusFilter 0 cands = (selectFrom 0 cands).take 1 := by
  suffices h : ∀ idx, corpusFilterLoop 0 idx [] cands = (selectFrom idx cands).take 1 from h 0
  induction cands with
  | nil => intro idx; simp [corpusFilterLoop, selectFrom]
  | cons c rest ih =>
    intro idx
    simp only [corpusFilterLoop, selectFrom]
    by_cases hq : qualifies c
    · simp [hq]
    · simp [hq, ih]

theorem selectFrom_append (xs ys : List Candidate) : ∀ idx : Nat,
    selectFrom idx (xs ++ ys) = selectFrom idx xs ++ selectFrom (idx + xs.length) ys := by
  induction xs with
  | nil => intro idx; simp [selectFrom]
  | cons c rest ih =>
    intro idx
    have harith : idx + 1 + rest.length = idx + (rest.length + 1) := by omega
    simp only [List.cons_append, selectFrom, List.length_cons]
    split <;> simp [ih, harith]

theorem selectFrom_length (cands : List Candidate) : ∀ idx : Nat,
    (selectFrom idx cands).length = (cands.filter (fun c => qualifies c)).length := by
  induction cands with
  | nil => intro idx; rfl
  | cons c rest ih =>
    intro idx
    simp only [selectFrom, List.filter_cons]
    split <;> simp [ih]

theorem mem_selectFrom {d : Document} (cands : List Candidate) : ∀ idx : Nat,
    d ∈ selectFrom idx cands →
      ∃ j c, cands[j]? = some c ∧ qualifies c = true ∧ d = wrapCandidate (idx + j) c := by
  induction cands with
  | nil => intro idx h; simp [selectFrom] at h
  | cons c rest ih =>
    intro idx h
    simp only [selectFrom] at h
    by_cases hq : qualifies c
    · rw [if_pos hq] at h
      rcases List.mem_cons.mp h with heq | hmem
      · exact ⟨0, c, by simp, hq, by simpa using heq⟩
      · obtain ⟨j, c', hj, hq', hd⟩ := ih (idx + 1) hmem
        exact ⟨j + 1, c', by simpa using hj, hq', by rw [hd]; congr 1; omega⟩
    · rw [if_neg hq] at h
      obtain ⟨j, c', hj, hq', hd⟩ := ih (idx + 1) h
      exact ⟨j + 1, c', by simpa using hj, hq', by rw [hd]; congr 1; omega⟩

/-- A wrapped qualifying candidate passes the thresholds re-read off the
Document. -/
theorem docQualifies_wrap (idx : Nat) (c : Candidate) :
    docQualifies (wrapCandidate idx c) = qualifies c := rfl

/-! ## Evaluation of the concrete scenario candidates -/

theorem qualifies_blank : qualifies blankCandidate = false := by decide

set_option maxRecDepth 8000 in
theorem qualifies_candA : qualifies candA = true := by
  simp only [qualifies, charCount_eq_sum]
  decide

set_option maxRecDepth 8000 in
theorem qualifies_candB : qualifies candB = true := by
  simp only [qualifies, charCount_eq_sum]
  decide

/-- The spec scenario: a stream of five candidates in which only positions 1
and 3 qualify gives, with target 3, exactly those two in order. -/
theorem corpusFilter_scenario5 :
    corpusFilter 3 scenario5 = [wrapCandidate 1 candA, wrapCandidate 3 candB] := by
  simp [corpusFilter, scenario5, corpusFilterLoop, qualifies_blank, qualifies_candA,
    qualifies_candB]

set_option maxRecDepth 100000 in
/-- Evaluation of the synthetic document's token estimate: the joined text of
the segmented article has 5861 characters, so the estimate is 1465. -/
theorem tokenEstimate_create_long_eval :
    tokenEstimate create_long_test_document = 1465 := by
  have h := splitOnChar_flatten '.' fullPieces
  simp only [tokenEstimate, create_long_test_document, assembleDocument, approxTokens,
    approxTokensOfChars, segmentText, sentenceFragments, fullText, h, charCount_eq_sum]
  decide

/-! ## Claim theorems -/

/-- C1 counterexample: the DocumentAssembler does not validate.  Assembling a
document whose `vertexSet` has length 3 with the label `{h:0,t:5,r:"P19"}`
does not fail: it produces a Document carrying exactly that label, although
the data-model invariants are violated; a label with `h == t` is likewise
accepted. -/
theorem assembler_accepts_invalid_document :
    (assembleDocument "doc" "T" [[['x', '.']]] vs3 [⟨0, 5, "P19"⟩]).labels = [⟨0, 5, "P19"⟩] ∧
    (assembleDocument "doc" "T" [[['x', '.']]] vs3 [⟨0, 5, "P19"⟩]).vertexSet.length = 3 ∧
    decide (documentInvariants (assembleDocument "doc" "T" [[['x', '.']]] vs3 [⟨0, 5, "P19"⟩]))
      = false ∧
    (assembleDocument "doc" "T" [[['x', '.']]] vs3 [⟨0, 0, "P1"⟩]).labels = [⟨0, 0, "P1"⟩] := by
  decide

/-- C1 (amended): the DocumentAssembler checks no invariant at all — for every
input it unconditionally produces a Document whose fields are exactly the
supplied parts, even when the parts violate the data-model invariants. -/
theorem assembleDocument_unchecked (id title : String) (sents : List (List Str))
    (vs : List (List Mention)) (ls : List RelLabel) :
    (assembleDocument id title sents vs ls).id = id ∧
    (assembleDocument id title sents vs ls).title = title ∧
    (assembleDocument id title sents vs ls).sents = sents ∧
    (assembleDocument id title sents vs ls).vertexSet = vs ∧
    (assembleDocument id title sents vs ls).labels = ls :=
  ⟨rfl, rfl, rfl, rfl, rfl⟩

/-- C2 counterexample: with target count `K = 0`, the loop's post-append break
still lets the first qualifying candidate through, so the filter returns one
document — more than `K`. -/
theorem corpusFilter_target_zero_excess :
    (corpusFilter 0 [candA]).length = 1 := by
  rw [corpusFilter_zero]
  simp [selectFrom, qualifies_candA]

/-- C2 (amended, for target count `K ≥ 1`): the CorpusFilter returns at most
`K` documents; every returned document satisfies the four thresholds; once
`K` documents have been collected, appending further candidates to the source
does not change the result (the remainder is never consumed); and when fewer
than `K` candidates qualify, the result is exactly the qualifying candidates,
wrapped in source order. -/
theorem corpusFilter_spec (K : Nat) (hK : 1 ≤ K) (cands extra : List Candidate) :
    (corpusFilter K cands).length ≤ K ∧
    (∀ d ∈ corpusFilter K cands, docQualifies d = true) ∧
    ((corpusFilter K cands).length = K →
      corpusFilter K (cands ++ extra) = corpusFilter K cands) ∧
    ((cands.filter (fun c => qualifies c)).length < K →
      corpusFilter K cands = selectFrom 0 cands) := by
  refine ⟨?_, ?_, ?_, ?_⟩
  · rw [corpusFilter_eq_take K hK cands]
    simp [List.length_take]
  · intro d hd
    rw [corpusFilter_eq_take K hK cands] at hd
    obtain ⟨j, c, hj, hq, hdc⟩ := mem_selectFrom cands 0 (List.mem_of_mem_take hd)
    rw [hdc, docQualifies_wrap]
    exact hq
  · intro hlen
    rw [corpusFilter_eq_take K hK cands] at hlen
    rw [corpusFilter_eq_take K hK cands, corpusFilter_eq_take K hK (cands ++ extra)]
    have hKle : K ≤ (selectFrom 0 cands).length := by
      rw [List.length_take] at hlen
      omega
    rw [selectFrom_append cands extra 0, List.take_append_of_le_length hKle]
  · intro hfew
    rw [corpusFilter_eq_take K hK cands]
    apply List.take_of_length_le
    rw [selectFrom_length cands 0]
    omega

/-- C2 witness: the spec scenario (five candidates, only positions 1 and 3
qualify, `K = 3`) instantiates the amended claim. -/
theorem corpusFilter_spec_witness :
    corpusFilter 3 scenario5 = [wrapCandidate 1 candA, wrapCandidate 3 candB] ∧
    ((corpusFilter 3 scenario5).length ≤ 3 ∧
      (∀ d ∈ corpusFilter 3 scenario5, docQualifies d = true) ∧
      ((corpusFilter 3 scenario5).length = 3 →
        corpusFilter 3 (scenario5 ++ []) = corpusFilter 3 scenario5) ∧
      ((scenario5.filter (fun c => qualifies c)).length < 3 →
        corpusFilter 3 scenario5 = selectFrom 0 scenario5)) :=
  ⟨corpusFilter_scenario5, corpusFilter_spec 3 (by decide) scenario5 []⟩

/-- C3: FixtureStore round-trip — loading a previously valid file, appending
documents and saving, then loading again, yields exactly the original
collection concatenated with the new documents, existing entries preserved
unchanged (and unvalidated: `orig` is arbitrary). -/
theorem fixtureStore_roundtrip (orig newDocs : List Document) :
    loadFixture (appendAndSave (FileContent.collection orig) newDocs) = orig ++ newDocs ∧
    appendAndSave (FileContent.collection orig) newDocs =
      FileContent.collection (orig ++ newDocs) :=
  ⟨rfl, rfl⟩

/-- C4: for a text with `N` non-empty sentence fragments, the Segmenter
produces exactly `ceil(N/4)` paragraphs, the last paragraph having `N mod 4`
sentences (4 when `N` is a positive multiple of 4), empty input yielding the
empty paragraph sequence; and `"A. B. C. D. E."` yields two paragraphs of
sizes `[4, 1]`. -/
theorem segmenter_paragraph_shape :
    (∀ text : Str,
      (segmentText text).length = ((sentenceFragments text).length + 3) / 4 ∧
      ((sentenceFragments text).length ≠ 0 →
        (segmentText text).getLast?.map List.length =
          some (if (sentenceFragments text).length % 4 = 0 then 4
            else (sentenceFragments text).length % 4)) ∧
      ((sentenceFragments text).length = 0 → segmentText text = [])) ∧
    (segmentText ("A. B. C. D. E.".data)).map List.length = [4, 1] ∧
    segmentText ("".data) = [] := by
  refine ⟨?_, by decide, by decide⟩
  intro text
  refine ⟨?_, ?_, ?_⟩
  · simp [segmentText, List.length_map, chunksOf4_length]
  · intro hN
    have hne : sentenceFragments text ≠ [] := by
      intro h0
      rw [h0] at hN
      simp at hN
    have hlast := chunksOf4_getLast (sentenceFragments text) hne
    cases hopt : (chunksOf4 (sentenceFragments text)).getLast? with
    | none =>
      rw [hopt] at hlast
      simp at hlast
    | some para =>
      rw [hopt] at hlast
      have hplen : para.length =
          if (sentenceFragments text).length % 4 = 0 then 4
          else (sentenceFragments text).length % 4 := by
        simpa using hlast
      have hmem : para ∈ chunksOf4 (sentenceFragments text) := by
        have h1 : para ∈ (chunksOf4 (sentenceFragments text)).getLast? := by
          rw [hopt]
          rfl
        obtain ⟨hne2, heq⟩ := List.mem_getLast?_eq_getLast h1
        rw [heq]
        exact List.getLast_mem hne2
      rw [segmentText, List.getLast?_map, hopt]
      simp only [Option.map_some']
      rw [List.length_map, segmentText_para_filter text para hmem, hplen]
  · intro hN
    have h0 : sentenceFragments text = [] := List.length_eq_zero.mp hN
    simp [segmentText, h0, chunksOf4]

/-- C4 witness: both implications instantiated — the five-sentence text for
the last-paragraph size, the empty text for the empty result. -/
theorem segmenter_paragraph_shape_witness :
    ((segmentText ("A. B. C. D. E.".data)).getLast?.map List.length =
      some (if (sentenceFragments ("A. B. C. D. E.".data)).length % 4 = 0 then 4
        else (sentenceFragments ("A. B. C. D. E.".data)).length % 4)) ∧
    segmentText ("".data) = [] :=
  ⟨(segmenter_paragraph_shape.1 ("A. B. C. D. E.".data)).2.1 (by decide),
    (segmenter_paragraph_shape.1 ("".data)).2.2 (by decide)⟩

/-- C5: loading invalid or absent fixture contents yields the empty collection
without error, and the subsequent append-and-save proceeds from that empty
collection. -/
theorem loadFixture_fail_open (newDocs : List Document) :
    loadFixture FileContent.invalid = [] ∧
    appendAndSave FileContent.invalid newDocs = FileContent.collection newDocs :=
  ⟨rfl, rfl⟩

/-- C6: the synthetic document does NOT satisfy the chunking trigger — its
token estimate is 1465, which is at most 2000, although the script's own
docstring and comment promise more than 2000 tokens. -/
theorem create_long_no_chunking_trigger :
    tokenEstimate create_long_test_document = 1465 ∧
    tokenEstimate create_long_test_document ≤ 2000 := by
  refine ⟨tokenEstimate_create_long_eval, ?_⟩
  rw [tokenEstimate_create_long_eval]
  omega

/-- C7: the token estimate is the joined character count integer-divided by
4; as a function of the character count it is monotonically non-decreasing;
and recomputation on fixed text is deterministic. -/
theorem approxTokens_policy :
    (∀ sentList : List Str, approxTokens sentList = charCount sentList / 4) ∧
    (∀ n m : Nat, n ≤ m → approxTokensOfChars n ≤ approxTokensOfChars m) ∧
    (∀ sentList : List Str, approxTokens sentList = approxTokens sentList) :=
  ⟨fun _ => rfl, fun _ _ h => Nat.div_le_div_right h, fun _ => rfl⟩

/-- C7 witness: monotonicity instantiated at 8 ≤ 9. -/
theorem approxTokens_policy_witness :
    approxTokensOfChars 8 ≤ approxTokensOfChars 9 :=
  approxTokens_policy.2.1 8 9 (by decide)

/-- C8: every document the CorpusFilter emits is a verbatim wrap of a
qualifying candidate at its source position: the id is `"docred_" ++ idx`
(derived from the position and from nothing else), and title, sentences,
vertexSet and labels are copied unchanged, with no re-validation. -/
theorem corpusFilter_wrap_verbatim :
    (∀ idx : Nat, ∀ c : Candidate,
      (wrapCandidate idx c).id = "docred_" ++ toString idx ∧
      (wrapCandidate idx c).title = c.title ∧
      (wrapCandidate idx c).sents = c.sents ∧
      (wrapCandidate idx c).vertexSet = c.vertexSet ∧
      (wrapCandidate idx c).labels = c.labels) ∧
    (∀ idx : Nat, ∀ c c' : Candidate,
      (wrapCandidate idx c).id = (wrapCandidate idx c').id) ∧
    (∀ K : Nat, ∀ cands : List Candidate, ∀ d ∈ corpusFilter K cands,
      ∃ j c, cands[j]? = some c ∧ qualifies c = true ∧ d = wrapCandidate j c) := by
  refine ⟨fun idx c => ⟨rfl, rfl, rfl, rfl, rfl⟩, fun idx c c' => rfl, ?_⟩
  intro K cands d hd
  have hmem : d ∈ selectFrom 0 cands := by
    cases K with
    | zero =>
      rw [corpusFilter_zero] at hd
      exact List.mem_of_mem_take hd
    | succ k =>
      rw [corpusFilter_eq_take (k + 1) (by omega) cands] at hd
      exact List.mem_of_mem_take hd
  obtain ⟨j, c, hj, hq, hdc⟩ := mem_selectFrom cands 0 hmem
  exact ⟨j, c, hj, hq, by simpa using hdc⟩

/-- C8 witness: the document emitted at position 1 of the scenario stream is a
verbatim wrap of the qualifying candidate found there. -/
theorem corpusFilter_wrap_verbatim_witness :
    ∃ j c, scenario5[j]? = some c ∧ qualifies c = true ∧
      wrapCandidate 1 candA = wrapCandidate j c :=
  corpusFilter_wrap_verbatim.2.2 3 scenario5 (wrapCandidate 1 candA)
    (by rw [corpusFilter_scenario5]; simp)

/-- C9: the corpus-filter producer's save step writes the selected documents
as the entire contents of the output file without reading it first; any prior
collection at that path is discarded, not appended to. -/
theorem fetchDocredSave_overwrites (prior prior2 : FileContent) (docs : List Document) :
    loadFixture (fetchDocredSave prior docs) = docs ∧
    fetchDocredSave prior docs = fetchDocredSave prior2 docs :=
  ⟨rfl, rfl⟩

set_option maxRecDepth 100000 in
/-- C10: the concrete synthetic document satisfies data-model invariants 1–4
even though no validation code runs. -/
theorem create_long_satisfies_invariants :
    documentInvariants create_long_test_document := by
  have h := splitOnChar_flatten '.' fullPieces
  simp only [documentInvariants, create_long_test_document, assembleDocument, segmentText,
    sentenceFragments, fullText, h]
  decide

end TextToRdf
